import Mathlib

/-!
Shallow embedding of mod_authz_svn.c, the Apache module giving path-based
authorization for Subversion repositories, together with theorems about the
policy resolution algorithm: the per-section permission resolver, the
qualified-before-generic ancestor walk, the subtree verifier for recursive
reads, flat group membership, the request classifier and the anonymous
phase of the decision protocol.
-/

/-- Permission bit: no access required (AUTHZ_SVN_NONE). -/
def AUTHZ_SVN_NONE : Nat := 0

/-- Permission bit: read access (AUTHZ_SVN_READ). -/
def AUTHZ_SVN_READ : Nat := 1

/-- Permission bit: write access (AUTHZ_SVN_WRITE). -/
def AUTHZ_SVN_WRITE : Nat := 2

/-- Permission bit: recursive read access (AUTHZ_SVN_READ_TREE). -/
def AUTHZ_SVN_READ_TREE : Nat := 4

/-- A parsed authorization policy, the Policy Source of the spec. Modelled
from the spec: the external config reader exposes named sections, each an
ordered sequence of (principal, permission-string) rule lines, enumerable
in declared order, plus enumeration of section names. -/
structure Config where
  sections : List (String × List (String × String))

/-- Rule lines of the section with the given name; a section that is not
present enumerates as the empty sequence. -/
def configLines (cfg : Config) (sec : String) : List (String × String) :=
  (List.lookup sec cfg.sections).getD []

/-- Modelled from the spec: svn_config_get of the external config reader
returns the value of the rule whose principal equals the given name inside
the given section, or the supplied default when absent. -/
def svn_config_get (cfg : Config) (sec opt dflt : String) : String :=
  (List.lookup opt (configLines cfg sec)).getD dflt

/-- Embeds ap_strchr_c: whether the character occurs in the string, viewed
as its character sequence. -/
def str_chr (s : String) (c : Char) : Bool :=
  s.data.contains c

/-- Embeds a zero result of strncmp(s, pat, strlen(pat)): the pattern's
characters form an initial segment of the string's characters. -/
def strncmp_eq (pat s : String) : Bool :=
  pat.data.isPrefixOf s.data

/-- Modelled from the spec: svn_cstring_split (external string library) as
the Group Resolver uses it; the spec's contract is that the group value is
split on a comma and members are compared by literal equality. -/
def svn_cstring_split (s : String) : List String :=
  (List.splitOn ',' s.data).map (fun cs => String.mk cs)

/-- Embeds group_contains_user: whether user occurs literally in the
comma-separated value of the rule named by the group inside the reserved
groups section. -/
def group_contains_user (cfg : Config) (group user : String) : Bool :=
  (svn_cstring_split (svn_config_get cfg "groups" group "")).any
    (fun group_user => decide (group_user = user))

/-- The allow and deny accumulators of struct parse_authz_line_baton; the
pool, config and user fields of the C baton are threaded as arguments. -/
@[ext] structure AuthzBits where
  allow : Nat
  deny : Nat
deriving DecidableEq

/-- The early-return conditions at the top of parse_authz_line: a line is
skipped when its principal is not the wildcard and there is no user, the
referenced group does not contain the user, or the username differs. -/
def line_skip (cfg : Config) (user : Option String) (name : String) : Bool :=
  if name = "*" then false
  else
    match user with
    | none => true
    | some u =>
      if strncmp_eq "@" name then ! group_contains_user cfg (String.mk (name.data.drop 1)) u
      else decide (name ≠ u)

/-- Embeds one step of parse_authz_line: a line whose principal does not
match is skipped, a matching line ORs each permission letter present into
allow and each recognized letter absent into deny. -/
def parse_authz_line (cfg : Config) (user : Option String)
    (name value : String) (b : AuthzBits) : AuthzBits :=
  if line_skip cfg user name then b
  else
    let b1 :=
      if str_chr value 'r' then { b with allow := b.allow ||| AUTHZ_SVN_READ }
      else { b with deny := b.deny ||| AUTHZ_SVN_READ }
    if str_chr value 'w' then { b1 with allow := b1.allow ||| AUTHZ_SVN_WRITE }
    else { b1 with deny := b1.deny ||| AUTHZ_SVN_WRITE }

/-- Folds parse_authz_line over a sequence of rule lines, as
svn_config_enumerate does over a section in declared order. -/
def enum_lines (cfg : Config) (user : Option String)
    (lines : List (String × String)) (b : AuthzBits) : AuthzBits :=
  lines.foldl (fun acc nv => parse_authz_line cfg user nv.1 nv.2 acc) b

/-- Modelled from the spec: svn_config_enumerate (external config reader)
applies the callback to every rule line of the named section in declared
order; here the callback is always parse_authz_line. -/
def svn_config_enumerate (cfg : Config) (sec : String)
    (user : Option String) (b : AuthzBits) : AuthzBits :=
  enum_lines cfg user (configLines cfg sec) b

/-- The decisiveness test of parse_authz_lines: the C return value
(deny & required) || (allow & required), as a Bool. -/
def decisive_for (b : AuthzBits) (required : Nat) : Bool :=
  decide (b.deny &&& required ≠ 0) || decide (b.allow &&& required ≠ 0)

/-- The access decision written into *access by parse_authz_lines and
check_access_subtree: !(deny & required) || ((allow & required) != 0). -/
def access_formula (b : AuthzBits) (required : Nat) : Bool :=
  decide (b.deny &&& required = 0) || decide (b.allow &&& required ≠ 0)

/-- Embeds parse_authz_lines: evaluate the repository-qualified section
first and stop when it is decisive; otherwise continue into the generic
section with the same baton (the accumulated bits are not cleared).
Returns (decisive, access). -/
def parse_authz_lines (cfg : Config) (repos_name repos_path : String)
    (user : Option String) (required_access : Nat) : Bool × Bool :=
  let qualified_repos_path := repos_name ++ ":" ++ repos_path
  let b1 := svn_config_enumerate cfg qualified_repos_path user ⟨0, 0⟩
  if decisive_for b1 required_access then
    (true, access_formula b1 required_access)
  else
    let b2 := svn_config_enumerate cfg repos_path user b1
    (decisive_for b2 required_access, access_formula b2 required_access)

/-- Embeds find_sections_matching_prefix accumulated over a full section
enumeration: the names of the sections, in declared order, that start with
the given string (strncmp against the whole length of the pattern). -/
def find_sections_matching (cfg : Config) (pat : String) : List String :=
  (cfg.sections.map Prod.fst).filter (fun sec_name => strncmp_eq pat sec_name)

/-- Evaluates a single section from zeroed bits and applies the access
formula, as each iteration of the loops in check_access_subtree does. -/
def section_access (cfg : Config) (user : Option String)
    (required_access : Nat) (sec : String) : Bool :=
  access_formula (svn_config_enumerate cfg sec user ⟨0, 0⟩) required_access

/-- One loop of check_access_subtree: sections are evaluated in order and
the loop stops at the first section whose access formula denies. -/
def subtree_loop (cfg : Config) (user : Option String)
    (required_access : Nat) : List String → Bool
  | [] => true
  | sec :: rest =>
    if section_access cfg user required_access sec then
      subtree_loop cfg user required_access rest
    else false

/-- Embeds check_access_subtree: collect the sections matching the
qualified path, scan them; then enumerate again with the generic path,
which appends the generic matches to the same array, and scan the grown
array. Returns the final *access value. -/
def check_access_subtree (cfg : Config) (repos_name repos_path : String)
    (user : Option String) (required_access : Nat) : Bool :=
  let qual := find_sections_matching cfg (repos_name ++ ":" ++ repos_path)
  if subtree_loop cfg user required_access qual then
    subtree_loop cfg user required_access
      (qual ++ find_sections_matching cfg repos_path)
  else false

/-- Joins path segments with slashes ("" for no segments). -/
def joinSegs : List String → String
  | [] => ""
  | [s] => s
  | s :: rest => s ++ "/" ++ joinSegs rest

/-- Modelled from the spec: the repository-relative path handed over by the
external URI decomposer, rooted at "/" as svn_path_join("/", path) does; a
path is a list of segments and the root is the empty list. -/
def pathToString (segs : List String) : String :=
  "/" ++ joinSegs segs

/-- Modelled from the spec: svn_path_split (external path library) strips
the last path segment, returning the parent and the stripped segment; at
the root both results are the root "/". -/
def svn_path_split (segs : List String) : List String × String :=
  match segs with
  | [] => ([], "/")
  | _ :: _ => (segs.dropLast, (segs.getLast?).getD "/")

/-- Embeds the while loop of check_access: parse_authz_lines at the current
path; when it is decisive return its access, when the base name has reached
"/" deny by default, otherwise split off the last segment and continue. -/
def check_access_loop (cfg : Config) (repos_name : String)
    (user : Option String) (required_access : Nat)
    (segs : List String) (base : String) : Bool :=
  let r := parse_authz_lines cfg repos_name (pathToString segs) user required_access
  if r.1 then r.2
  else if base = "/" then false
  else
    let p := svn_path_split segs
    check_access_loop cfg repos_name user required_access p.1 p.2
termination_by segs.length + (if base = "/" then 0 else 1)
decreasing_by
  rename_i hb
  rw [if_neg hb]
  rcases segs with _ | ⟨s, t⟩
  · simp [svn_path_split]
  · simp only [svn_path_split, List.length_dropLast, List.length_cons]
    split <;> omega

/-- Embeds check_access: a null path always succeeds; AUTHZ_SVN_READ_TREE
is turned into AUTHZ_SVN_READ plus a subtree requirement; the ancestor
walk runs first and the subtree check runs only when the walk allowed. -/
def check_access (cfg : Config) (repos_name : String)
    (repos_path : Option (List String)) (user : Option String)
    (required_access : Nat) : Bool :=
  match repos_path with
  | none => true
  | some segs =>
    let require_subtree : Bool := required_access == AUTHZ_SVN_READ_TREE
    let required := if require_subtree then AUTHZ_SVN_READ else required_access
    let access := check_access_loop cfg repos_name user required segs (pathToString segs)
    if access && require_subtree then
      check_access_subtree cfg repos_name (pathToString segs) user required
    else access

/-- The Apache request methods distinguished by req_check_access; every
other method falls to the strictest class. -/
inductive Method where
  | m_options | m_get | m_propfind | m_report
  | m_copy
  | m_move | m_mkcol | m_delete | m_put | m_proppatch
  | m_checkout | m_merge | m_mkactivity
  | m_other
deriving DecidableEq

/-- The switch at the top of req_check_access mapping a method to the
required permission. -/
def method_authz_type (m : Method) : Nat :=
  match m with
  | .m_options | .m_get | .m_propfind | .m_report => AUTHZ_SVN_READ
  | .m_copy => AUTHZ_SVN_READ_TREE
  | .m_move | .m_mkcol | .m_delete | .m_put | .m_proppatch
  | .m_checkout | .m_merge | .m_mkactivity => AUTHZ_SVN_WRITE
  | .m_other => AUTHZ_SVN_WRITE

/-- The host-visible outcomes of req_check_access and of the hook
functions: OK, DECLINED or an HTTP error status. -/
inductive Status where
  | ok | declined | http_forbidden | http_bad_request
  | http_internal_server_error
deriving DecidableEq

/-- The Apache Satisfy setting reported by ap_satisfies. -/
inductive Satisfy where
  | any | all | nospec
deriving DecidableEq

/-- The per-directory configuration record authz_svn_config_rec. -/
structure AuthzSvnConfig where
  authoritative : Bool
  anonymous : Bool
  base_path : String
  access_file : Option String

/-- An inbound request together with the answers of the external
collaborators consulted while handling it. Modelled from the spec: the
URI decomposer (dav_svn_split_uri) is a consumed interface returning a
repository name and a nullable repository-relative path (or failing), the
Destination header is parsed and unescaped by the host, and the loaded
policy stands for the cached result of reading the access file (none when
reading failed). -/
structure Request where
  method : Method
  user : Option String
  headers : List (String × String)
  proxyreq : Bool
  some_auth_required : Bool
  satisfies : Satisfy
  split_uri : Option (String × Option (List String))
  dest_path_of_uri : String → String
  split_dest_uri : String → Option (String × Option (List String))
  loaded_policy : Option Config

/-- Embeds req_check_access: classify the method, decompose the URI, drop
the path for MERGE, handle the Destination target of MOVE and COPY, load
the policy, check the source path and, for MOVE and COPY only, check the
destination path with AUTHZ_SVN_WRITE. -/
def req_check_access (conf : AuthzSvnConfig) (r : Request) : Status :=
  let authz_svn_type := method_authz_type r.method
  match r.split_uri with
  | none => Status.http_internal_server_error
  | some (repos_name, repos_path0) =>
    let repos_path := if r.method = Method.m_merge then none else repos_path0
    if r.method = Method.m_move ∨ r.method = Method.m_copy then
      match List.lookup "Destination" r.headers with
      | none => Status.declined
      | some dest_uri =>
        let dest_path := r.dest_path_of_uri dest_uri
        if ¬ strncmp_eq conf.base_path dest_path then Status.http_bad_request
        else
          match r.split_dest_uri dest_path with
          | none => Status.http_internal_server_error
          | some (dest_repos_name, dest_repos_path) =>
            match r.loaded_policy with
            | none => Status.declined
            | some cfg =>
              if ¬ check_access cfg repos_name repos_path r.user authz_svn_type then
                Status.declined
              else if ¬ check_access cfg dest_repos_name dest_repos_path r.user
                          AUTHZ_SVN_WRITE then
                Status.declined
              else Status.ok
    else
      match r.loaded_policy with
      | none => Status.declined
      | some cfg =>
        if check_access cfg repos_name repos_path r.user authz_svn_type then Status.ok
        else Status.declined

/-- Embeds the access_checker hook (the anonymous phase): bail out when not
configured, defer when authentication is required but Satisfy Any is not in
effect, forbid when Satisfy Any is in effect and the request already
carries an Authorization (or, behind a proxy, Proxy-Authorization) header,
and otherwise let the anonymous policy decision stand, honouring the
authoritative flag on denial. -/
def access_checker (conf : AuthzSvnConfig) (r : Request) : Status :=
  if !conf.anonymous || conf.access_file.isNone then Status.declined
  else if r.some_auth_required && !(decide (r.satisfies = Satisfy.any)) then
    Status.declined
  else if r.some_auth_required &&
      (List.lookup
        (if r.proxyreq then "Proxy-Authorization" else "Authorization")
        r.headers).isSome then
    Status.http_forbidden
  else
    let status := req_check_access conf r
    if status = Status.declined then
      if !conf.authoritative then Status.declined else Status.http_forbidden
    else status

/-- Permission letters present in a value, as an allow bitmask. -/
def allow_mask (value : String) : Nat :=
  (if str_chr value 'r' then AUTHZ_SVN_READ else 0) |||
  (if str_chr value 'w' then AUTHZ_SVN_WRITE else 0)

/-- Recognized permission letters absent from a value, as a deny bitmask. -/
def deny_mask (value : String) : Nat :=
  (if str_chr value 'r' then 0 else AUTHZ_SVN_READ) |||
  (if str_chr value 'w' then 0 else AUTHZ_SVN_WRITE)

/-- Whether a rule line's principal applies to the given user: the
wildcard, an exact username, or membership of the referenced group. -/
def line_matches (cfg : Config) (user : Option String) (name : String) : Bool :=
  if name = "*" then true
  else
    match user with
    | none => false
    | some u =>
      if strncmp_eq "@" name then group_contains_user cfg (String.mk (name.data.drop 1)) u
      else decide (name = u)

/-- The spec's notion of a path prefix, for stating C4: the base equals the
name or the base extended by a slash starts the name. -/
def path_descendant (base name : String) : Bool :=
  decide (name = base) || strncmp_eq (base ++ "/") name

/-- The ancestors of a path from the path itself up to and including the
root, in walking order. -/
def ancestor_paths : List String → List (List String)
  | [] => [[]]
  | s :: t => (s :: t) :: ancestor_paths ((s :: t).dropLast)
termination_by l => l.length
decreasing_by
  simp only [List.length_dropLast, List.length_cons]
  omega

/-- One depth of the spec's resolution: the qualified section evaluated
alone decides when decisive, otherwise the generic section evaluated alone
decides when decisive, otherwise the depth is silent. -/
def level_decision (cfg : Config) (repos_name path : String)
    (user : Option String) (required : Nat) : Option Bool :=
  let bq := svn_config_enumerate cfg (repos_name ++ ":" ++ path) user ⟨0, 0⟩
  if decisive_for bq required then some (access_formula bq required)
  else
    let bg := svn_config_enumerate cfg path user ⟨0, 0⟩
    if decisive_for bg required then some (access_formula bg required) else none

/-- The wildcard rule lines of a section: the only lines an anonymous
evaluation can use. -/
def star_lines (cfg : Config) (sec : String) : List (String × String) :=
  (configLines cfg sec).filter (fun nv => decide (nv.1 = "*"))

/-- Bitwise AND distributes over bitwise OR on Nat. -/
theorem lor_land_distrib (x y r : Nat) :
    (x ||| y) &&& r = (x &&& r) ||| (y &&& r) := by
  apply Nat.eq_of_testBit_eq
  intro i
  simp only [Nat.testBit_land, Nat.testBit_lor]
  cases x.testBit i <;> cases y.testBit i <;> cases r.testBit i <;> rfl

/-- The skip test of parse_authz_line is the negation of the principal
match. -/
theorem line_skip_eq (cfg : Config) (user : Option String) (name : String) :
    line_skip cfg user name = ! line_matches cfg user name := by
  unfold line_skip line_matches
  rcases user with _ | u
  · by_cases h1 : name = "*" <;> simp [h1]
  · by_cases h1 : name = "*"
    · simp [h1]
    · by_cases h2 : strncmp_eq "@" name
      · simp [h1, h2]
      · simp [h1, h2, decide_not]

/-- A parse_authz_line step ORs the masks of the value into a matching
baton and leaves a non-matching baton untouched. -/
theorem parse_authz_line_eq_mask (cfg : Config) (user : Option String)
    (name value : String) (b : AuthzBits) :
    parse_authz_line cfg user name value b =
      if line_matches cfg user name then
        AuthzBits.mk (b.allow ||| allow_mask value) (b.deny ||| deny_mask value)
      else b := by
  unfold parse_authz_line
  rw [line_skip_eq]
  cases hlm : line_matches cfg user name
  · simp
  · simp only [Bool.not_true, Bool.false_eq_true, if_false, ite_true]
    cases hr : str_chr value 'r' <;> cases hw : str_chr value 'w' <;>
      simp [allow_mask, deny_mask, hr, hw, AuthzBits.ext_iff, Nat.lor_assoc]

/-- The allow accumulator of a section evaluation decomposes as the
incoming bits OR the bits collected from zero. -/
theorem enum_lines_allow (cfg : Config) (user : Option String)
    (L : List (String × String)) :
    ∀ b : AuthzBits,
      (enum_lines cfg user L b).allow
        = b.allow ||| (enum_lines cfg user L ⟨0, 0⟩).allow := by
  induction L with
  | nil => intro b; simp [enum_lines]
  | cons nv rest ih =>
    intro b
    simp only [enum_lines, List.foldl_cons] at ih ⊢
    rw [ih (parse_authz_line cfg user nv.1 nv.2 b),
        ih (parse_authz_line cfg user nv.1 nv.2 ⟨0, 0⟩),
        parse_authz_line_eq_mask, parse_authz_line_eq_mask cfg user nv.1 nv.2 ⟨0, 0⟩]
    by_cases hm : line_matches cfg user nv.1 <;>
      simp [hm, Nat.lor_assoc]

/-- The deny accumulator of a section evaluation decomposes as the
incoming bits OR the bits collected from zero. -/
theorem enum_lines_deny (cfg : Config) (user : Option String)
    (L : List (String × String)) :
    ∀ b : AuthzBits,
      (enum_lines cfg user L b).deny
        = b.deny ||| (enum_lines cfg user L ⟨0, 0⟩).deny := by
  induction L with
  | nil => intro b; simp [enum_lines]
  | cons nv rest ih =>
    intro b
    simp only [enum_lines, List.foldl_cons] at ih ⊢
    rw [ih (parse_authz_line cfg user nv.1 nv.2 b),
        ih (parse_authz_line cfg user nv.1 nv.2 ⟨0, 0⟩),
        parse_authz_line_eq_mask, parse_authz_line_eq_mask cfg user nv.1 nv.2 ⟨0, 0⟩]
    by_cases hm : line_matches cfg user nv.1 <;>
      simp [hm, Nat.lor_assoc]

/-- Folding an OR accumulator starting from c equals c OR the fold from
zero. -/
theorem foldl_lor_shift {α : Type} (g : α → Nat) :
    ∀ (l : List α) (c : Nat),
      l.foldl (fun acc x => acc ||| g x) c
        = c ||| l.foldl (fun acc x => acc ||| g x) 0 := by
  intro l
  induction l with
  | nil => intro c; simp
  | cons x rest ih =>
    intro c
    simp only [List.foldl_cons]
    rw [ih (c ||| g x), ih (0 ||| g x)]
    simp [Nat.lor_assoc]

/-- Section evaluation: the allow bits are the incoming bits OR the allow
masks of exactly the matching lines. -/
theorem enum_lines_allow_fold (cfg : Config) (user : Option String) :
    ∀ (L : List (String × String)) (b : AuthzBits),
      (enum_lines cfg user L b).allow
        = b.allow ||| (L.filter (fun nv => line_matches cfg user nv.1)).foldl
            (fun acc nv => acc ||| allow_mask nv.2) 0 := by
  intro L
  induction L with
  | nil => intro b; simp [enum_lines]
  | cons nv rest ih =>
    intro b
    simp only [enum_lines, List.foldl_cons] at ih ⊢
    rw [ih (parse_authz_line cfg user nv.1 nv.2 b), parse_authz_line_eq_mask]
    cases hm : line_matches cfg user nv.1
    · simp [List.filter_cons, hm]
    · simp only [List.filter_cons, hm, ite_true, List.foldl_cons, if_true]
      rw [foldl_lor_shift _ _ (0 ||| allow_mask nv.2)]
      simp [Nat.lor_assoc]

/-- Section evaluation: the deny bits are the incoming bits OR the deny
masks of exactly the matching lines. -/
theorem enum_lines_deny_fold (cfg : Config) (user : Option String) :
    ∀ (L : List (String × String)) (b : AuthzBits),
      (enum_lines cfg user L b).deny
        = b.deny ||| (L.filter (fun nv => line_matches cfg user nv.1)).foldl
            (fun acc nv => acc ||| deny_mask nv.2) 0 := by
  intro L
  induction L with
  | nil => intro b; simp [enum_lines]
  | cons nv rest ih =>
    intro b
    simp only [enum_lines, List.foldl_cons] at ih ⊢
    rw [ih (parse_authz_line cfg user nv.1 nv.2 b), parse_authz_line_eq_mask]
    cases hm : line_matches cfg user nv.1
    · simp [List.filter_cons, hm]
    · simp only [List.filter_cons, hm, ite_true, List.foldl_cons, if_true]
      rw [foldl_lor_shift _ _ (0 ||| deny_mask nv.2)]
      simp [Nat.lor_assoc]

/-- A bitwise OR of naturals is zero exactly when both operands are. -/
theorem lor_eq_zero_iff (x y : Nat) : x ||| y = 0 ↔ x = 0 ∧ y = 0 := by
  constructor
  · intro h
    have hb : ∀ i, x.testBit i = false ∧ y.testBit i = false := by
      intro i
      have h2 : (x ||| y).testBit i = false := by rw [h]; exact Nat.zero_testBit i
      rw [Nat.testBit_lor, Bool.or_eq_false_iff] at h2
      exact h2
    exact ⟨Nat.eq_of_testBit_eq fun i => by rw [(hb i).1, Nat.zero_testBit],
           Nat.eq_of_testBit_eq fun i => by rw [(hb i).2, Nat.zero_testBit]⟩
  · rintro ⟨hx, hy⟩
    rw [hx, hy]
    exact Nat.zero_or 0

/-- The decisiveness test equals the claim's form: the union of allow and
deny bits intersects the required set. -/
theorem decisive_for_eq_lor (b : AuthzBits) (required : Nat) :
    decisive_for b required = decide ((b.allow ||| b.deny) &&& required ≠ 0) := by
  unfold decisive_for
  rw [← Bool.decide_or]
  apply decide_eq_decide.mpr
  rw [lor_land_distrib]
  have h := lor_eq_zero_iff (b.allow &&& required) (b.deny &&& required)
  tauto

/-- The access decision equals the claim's form: an explicit grant, or no
explicit denial, of the required bits. -/
theorem access_formula_comm (b : AuthzBits) (required : Nat) :
    access_formula b required
      = (decide (b.allow &&& required ≠ 0) || decide (b.deny &&& required = 0)) := by
  unfold access_formula
  exact Bool.or_comm _ _

/-- C2: section evaluation has no early exit and accumulates by OR over
exactly the matching lines; a non-matching line contributes nothing, a
matching line adds every present letter to allow and every recognized
absent letter to deny; a level is decisive for R iff (allow OR deny)
intersects R, and a decisive level's decision is (allow AND R) nonzero OR
(deny AND R) zero, so a grant beats a denial from the same evaluation. -/
theorem claim_C2_section_evaluation :
    ∀ (cfg : Config) (user : Option String) (name value : String)
      (b : AuthzBits) (sec : String) (required : Nat),
      (parse_authz_line cfg user name value b
         = if line_matches cfg user name then
             AuthzBits.mk (b.allow ||| allow_mask value) (b.deny ||| deny_mask value)
           else b)
      ∧ ((svn_config_enumerate cfg sec user b).allow
           = b.allow |||
             ((configLines cfg sec).filter
                 (fun nv => line_matches cfg user nv.1)).foldl
               (fun acc nv => acc ||| allow_mask nv.2) 0)
      ∧ ((svn_config_enumerate cfg sec user b).deny
           = b.deny |||
             ((configLines cfg sec).filter
                 (fun nv => line_matches cfg user nv.1)).foldl
               (fun acc nv => acc ||| deny_mask nv.2) 0)
      ∧ (decisive_for b required = decide ((b.allow ||| b.deny) &&& required ≠ 0))
      ∧ (access_formula b required
           = (decide (b.allow &&& required ≠ 0) || decide (b.deny &&& required = 0))) := by
  intro cfg user name value b sec required
  exact ⟨parse_authz_line_eq_mask cfg user name value b,
    enum_lines_allow_fold cfg user (configLines cfg sec) b,
    enum_lines_deny_fold cfg user (configLines cfg sec) b,
    decisive_for_eq_lor b required,
    access_formula_comm b required⟩

/-- C8: group membership is exactly literal containment of the user in the
comma-separated value of the group's own rule in the groups section: no
normalization, no case folding and no recursive resolution, so membership
never flows through another group. -/
theorem claim_C8_flat_group_membership :
    ∀ (cfg : Config) (g u : String),
      group_contains_user cfg g u = true
        ↔ u ∈ svn_cstring_split (svn_config_get cfg "groups" g "") := by
  intro cfg g u
  simp [group_contains_user, List.any_eq_true]

/-- C10: starting a section evaluation from carried-over bits that do not
intersect the required permission yields, restricted to the required
permission, the same decision and the same decisiveness as starting from
zeroed bits. -/
theorem claim_C10_carry_over_equivalence :
    ∀ (cfg : Config) (sec : String) (user : Option String)
      (required : Nat) (b : AuthzBits),
      b.allow &&& required = 0 → b.deny &&& required = 0 →
      (access_formula (svn_config_enumerate cfg sec user b) required
         = access_formula (svn_config_enumerate cfg sec user ⟨0, 0⟩) required)
      ∧ (decisive_for (svn_config_enumerate cfg sec user b) required
         = decisive_for (svn_config_enumerate cfg sec user ⟨0, 0⟩) required) := by
  intro cfg sec user required b ha hd
  have hA : (svn_config_enumerate cfg sec user b).allow &&& required
      = (svn_config_enumerate cfg sec user ⟨0, 0⟩).allow &&& required := by
    unfold svn_config_enumerate
    rw [enum_lines_allow, lor_land_distrib, ha, Nat.zero_or]
  have hD : (svn_config_enumerate cfg sec user b).deny &&& required
      = (svn_config_enumerate cfg sec user ⟨0, 0⟩).deny &&& required := by
    unfold svn_config_enumerate
    rw [enum_lines_deny, lor_land_distrib, hd, Nat.zero_or]
  constructor
  · unfold access_formula; rw [hA, hD]
  · unfold decisive_for; rw [hA, hD]

/-- Witness for C10 at a concrete carried-over baton and section. -/
theorem claim_C10_witness :
    ((AuthzBits.mk 2 2).allow &&& 1 = 0)
    ∧ ((AuthzBits.mk 2 2).deny &&& 1 = 0)
    ∧ (access_formula
        (svn_config_enumerate (Config.mk [("/a", [("*", "r")])]) "/a" none
          (AuthzBits.mk 2 2)) 1
        = access_formula
            (svn_config_enumerate (Config.mk [("/a", [("*", "r")])]) "/a" none
              (AuthzBits.mk 0 0)) 1) :=
  ⟨by decide, by decide,
    (claim_C10_carry_over_equivalence (Config.mk [("/a", [("*", "r")])]) "/a"
      none 1 (AuthzBits.mk 2 2) (by decide) (by decide)).1⟩

/-- A subtree scan passes exactly when every section in the list passes the
single-section access formula. -/
theorem subtree_loop_eq_all (cfg : Config) (user : Option String)
    (required : Nat) :
    ∀ l : List String,
      subtree_loop cfg user required l
        = l.all (fun sec => section_access cfg user required sec) := by
  intro l
  induction l with
  | nil => rfl
  | cons s rest ih =>
    simp only [subtree_loop, List.all_cons]
    cases h : section_access cfg user required s <;> simp [h, ih]

/-- The subtree verifier passes exactly when every section matching the
qualified pattern or the generic pattern passes on its own. -/
theorem check_access_subtree_eq_all (cfg : Config) (nm p : String)
    (user : Option String) (req : Nat) :
    check_access_subtree cfg nm p user req
      = ((find_sections_matching cfg (nm ++ ":" ++ p))
          ++ find_sections_matching cfg p).all
          (fun sec => section_access cfg user req sec) := by
  unfold check_access_subtree
  simp only [subtree_loop_eq_all, List.all_append]
  cases h : (find_sections_matching cfg (nm ++ ":" ++ p)).all
      (fun sec => section_access cfg user req sec) <;> simp [h]

/-- A ReadTree check splits into the plain Read ancestor walk and the
subtree verification. -/
theorem check_access_readtree_split (cfg : Config) (nm : String)
    (segs : List String) (user : Option String) :
    check_access cfg nm (some segs) user AUTHZ_SVN_READ_TREE
      = (check_access cfg nm (some segs) user AUTHZ_SVN_READ
         && check_access_subtree cfg nm (pathToString segs) user
              AUTHZ_SVN_READ) := by
  simp only [check_access, AUTHZ_SVN_READ_TREE, AUTHZ_SVN_READ]
  norm_num
  cases h : check_access_loop cfg nm user 1 segs (pathToString segs) <;> simp [h]

/-- C3 (amended): a ReadTree query on a non-null path decides as the plain
Read ancestor walk AND the subtree verification, and the subtree
verification fails exactly when some section enumerated under the path by
literal string prefix — not by path descent — denies Read on its own, with
no notion of existence of those paths anywhere in the model. -/
theorem claim_C3_readtree_conjunction :
    ∀ (cfg : Config) (nm : String) (segs : List String) (user : Option String),
      (check_access cfg nm (some segs) user AUTHZ_SVN_READ_TREE
         = (check_access cfg nm (some segs) user AUTHZ_SVN_READ
            && check_access_subtree cfg nm (pathToString segs) user AUTHZ_SVN_READ))
      ∧ (check_access_subtree cfg nm (pathToString segs) user AUTHZ_SVN_READ = false
         ↔ ∃ sec ∈ (find_sections_matching cfg (nm ++ ":" ++ pathToString segs)
                     ++ find_sections_matching cfg (pathToString segs)),
             section_access cfg user AUTHZ_SVN_READ sec = false) := by
  intro cfg nm segs user
  constructor
  · exact check_access_readtree_split cfg nm segs user
  · rw [check_access_subtree_eq_all]
    simp only [List.all_eq_false, Bool.not_eq_true]

/-- Counterexample to C4 as stated: for base path /a the subtree verifier
denies because of the section /ab, although /ab has /a only as a string
prefix, not as a path prefix. -/
theorem claim_C4_counterexample :
    check_access_subtree (Config.mk [("/ab", [("*", "")])]) "repo" "/a" none
        AUTHZ_SVN_READ = false
    ∧ (Config.mk [("/ab", [("*", "")])]).sections.map Prod.fst = ["/ab"]
    ∧ path_descendant "/a" "/ab" = false := by
  refine ⟨by decide, rfl, by decide⟩

/-- C4 (amended): the subtree verifier examines exactly the sections whose
name starts with the qualified base or, in the second pass, with the base
path itself as a literal string prefix, and it fails exactly when one of
those sections' single-section evaluation denies the required
permission. -/
theorem claim_C4_string_prefix_subtree :
    ∀ (cfg : Config) (nm p : String) (user : Option String) (req : Nat),
      (check_access_subtree cfg nm p user req
         = ((find_sections_matching cfg (nm ++ ":" ++ p))
             ++ find_sections_matching cfg p).all
             (fun sec => section_access cfg user req sec))
      ∧ (∀ sec : String,
          sec ∈ find_sections_matching cfg p
            ↔ (sec ∈ cfg.sections.map Prod.fst ∧ strncmp_eq p sec = true)) := by
  intro cfg nm p user req
  refine ⟨check_access_subtree_eq_all cfg nm p user req, ?_⟩
  intro sec
  simp [find_sections_matching, List.mem_filter]

/-- A non-decisive baton has no allow and no deny bits in the required
set. -/
theorem decisive_for_false (b : AuthzBits) (required : Nat)
    (h : decisive_for b required = false) :
    b.deny &&& required = 0 ∧ b.allow &&& required = 0 := by
  simp only [decisive_for, Bool.or_eq_false_iff, decide_eq_false_iff_not, ne_eq,
    not_not] at h
  exact h

/-- Starting a section evaluation from bits outside the required set gives
the same access formula and decisiveness as starting from zero. -/
theorem enum_carry_formulas (cfg : Config) (sec : String)
    (user : Option String) (required : Nat) (b : AuthzBits)
    (ha : b.allow &&& required = 0) (hd : b.deny &&& required = 0) :
    (access_formula (svn_config_enumerate cfg sec user b) required
       = access_formula (svn_config_enumerate cfg sec user ⟨0, 0⟩) required)
    ∧ (decisive_for (svn_config_enumerate cfg sec user b) required
       = decisive_for (svn_config_enumerate cfg sec user ⟨0, 0⟩) required) := by
  have hA : (svn_config_enumerate cfg sec user b).allow &&& required
      = (svn_config_enumerate cfg sec user ⟨0, 0⟩).allow &&& required := by
    unfold svn_config_enumerate
    rw [enum_lines_allow, lor_land_distrib, ha, Nat.zero_or]
  have hD : (svn_config_enumerate cfg sec user b).deny &&& required
      = (svn_config_enumerate cfg sec user ⟨0, 0⟩).deny &&& required := by
    unfold svn_config_enumerate
    rw [enum_lines_deny, lor_land_distrib, hd, Nat.zero_or]
  constructor
  · unfold access_formula; rw [hA, hD]
  · unfold decisive_for; rw [hA, hD]

/-- parse_authz_lines is decisive exactly when the depth has a level
decision in the spec's sense. -/
theorem parse_authz_lines_fst (cfg : Config) (nm p : String)
    (user : Option String) (req : Nat) :
    (parse_authz_lines cfg nm p user req).1
      = (level_decision cfg nm p user req).isSome := by
  unfold parse_authz_lines level_decision
  cases hq : decisive_for (svn_config_enumerate cfg (nm ++ ":" ++ p) user ⟨0, 0⟩) req
  · obtain ⟨hd0, ha0⟩ := decisive_for_false _ _ hq
    have h2 := (enum_carry_formulas cfg p user req
      (svn_config_enumerate cfg (nm ++ ":" ++ p) user ⟨0, 0⟩) ha0 hd0).2
    simp only [hq, Bool.false_eq_true, if_false, h2]
    cases hgz : decisive_for (svn_config_enumerate cfg p user ⟨0, 0⟩) req <;>
      simp [hgz]
  · simp [hq]

/-- On a decisive depth, parse_authz_lines returns the level decision. -/
theorem parse_authz_lines_snd (cfg : Config) (nm p : String)
    (user : Option String) (req : Nat) (a : Bool)
    (ha : level_decision cfg nm p user req = some a) :
    (parse_authz_lines cfg nm p user req).2 = a := by
  unfold level_decision at ha
  unfold parse_authz_lines
  cases hq : decisive_for (svn_config_enumerate cfg (nm ++ ":" ++ p) user ⟨0, 0⟩) req
  · obtain ⟨hd0, ha0⟩ := decisive_for_false _ _ hq
    have h1 := (enum_carry_formulas cfg p user req
      (svn_config_enumerate cfg (nm ++ ":" ++ p) user ⟨0, 0⟩) ha0 hd0).1
    simp only [hq, Bool.false_eq_true, if_false] at ha ⊢
    cases hgz : decisive_for (svn_config_enumerate cfg p user ⟨0, 0⟩) req
    · rw [hgz] at ha
      simp at ha
    · rw [hgz] at ha
      simp only [ite_true, Option.some.injEq, if_true] at ha
      rw [h1, ha]
  · simp only [hq, ite_true, Option.some.injEq, if_true] at ha
    simp [hq, ha]

/-- A non-decisive depth has no level decision. -/
theorem level_none_of_not_dec (cfg : Config) (nm p : String)
    (user : Option String) (req : Nat)
    (h : (parse_authz_lines cfg nm p user req).1 = false) :
    level_decision cfg nm p user req = none := by
  have hf := parse_authz_lines_fst cfg nm p user req
  rw [h] at hf
  cases hl : level_decision cfg nm p user req
  · rfl
  · rw [hl] at hf
    simp at hf

/-- The only segment lists whose rooted string is the bare root are the
empty list and the single empty segment. -/
theorem pathToString_eq_root :
    ∀ segs : List String, pathToString segs = "/" → segs = [] ∨ segs = [""] := by
  intro segs h
  rcases segs with _ | ⟨s, t⟩
  · exact Or.inl rfl
  · right
    rcases t with _ | ⟨b, t2⟩
    · have hlen := congrArg String.length h
      simp only [pathToString, joinSegs, String.length_append] at hlen
      have hs : s.length = 0 := by omega
      have hse : s = "" := by
        cases s with
        | mk data =>
          simp [String.length] at hs
          simp [hs]
      rw [hse]
    · exfalso
      have hlen := congrArg String.length h
      simp only [pathToString, joinSegs, String.length_append] at hlen
      have hone : ("/" : String).length = 1 := rfl
      omega

/-- The while loop of check_access computes the first level decision along
the ancestors, defaulting to deny. -/
theorem check_access_loop_eq_find (cfg : Config) (nm : String)
    (user : Option String) (req : Nat) :
    ∀ (n : Nat) (segs : List String) (base : String),
      segs.length + (if base = "/" then 0 else 1) ≤ n →
      "/" ∉ segs →
      (base = "/" → segs = [] ∨ segs = [""]) →
      check_access_loop cfg nm user req segs base
        = ((ancestor_paths segs).findSome?
            (fun a => level_decision cfg nm (pathToString a) user req)).getD false := by
  intro n
  induction n with
  | zero =>
    intro segs base hlen h1 h2
    have hb : base = "/" := by
      by_contra hb
      simp [hb] at hlen
    rcases h2 hb with h3 | h3
    · subst h3
      subst hb
      unfold check_access_loop
      cases hdec : (parse_authz_lines cfg nm (pathToString []) user req).1
      · have hnone := level_none_of_not_dec cfg nm (pathToString []) user req hdec
        simp [hdec, ancestor_paths, hnone]
      · have hiso : (level_decision cfg nm (pathToString []) user req).isSome = true := by
          rw [← parse_authz_lines_fst, hdec]
        obtain ⟨a, hsa⟩ := Option.isSome_iff_exists.mp hiso
        have hval := parse_authz_lines_snd cfg nm (pathToString []) user req a hsa
        simp [hdec, ancestor_paths, hsa, hval]
    · subst h3
      simp [hb] at hlen
  | succ n ih =>
    intro segs base hlen h1 h2
    unfold check_access_loop
    cases hdec : (parse_authz_lines cfg nm (pathToString segs) user req).1
    · have hnone := level_none_of_not_dec cfg nm (pathToString segs) user req hdec
      by_cases hb : base = "/"
      · rcases h2 hb with h3 | h3
        · subst h3
          simp [hdec, hb, ancestor_paths, hnone]
        · subst h3
          have hnone2 : level_decision cfg nm (pathToString []) user req = none := by
            simp only [pathToString, joinSegs] at hnone ⊢
            exact hnone
          simp [hdec, hb, ancestor_paths, List.findSome?_cons, hnone, hnone2]
      · have hlen2 : (svn_path_split segs).1.length
            + (if (svn_path_split segs).2 = "/" then 0 else 1) ≤ n := by
          rcases segs with _ | ⟨s, t⟩
          · simp [svn_path_split]
          · simp only [svn_path_split, List.length_dropLast, List.length_cons,
              hb, ite_false] at hlen ⊢
            simp [hb] at hlen
            split <;> omega
        have hmem2 : "/" ∉ (svn_path_split segs).1 := by
          rcases segs with _ | ⟨s, t⟩
          · simp [svn_path_split]
          · simp only [svn_path_split]
            intro hmem
            exact h1 (List.dropLast_subset _ hmem)
        have hinv2 : (svn_path_split segs).2 = "/" →
            (svn_path_split segs).1 = [] ∨ (svn_path_split segs).1 = [""] := by
          rcases segs with _ | ⟨s, t⟩
          · intro _
            exact Or.inl rfl
          · intro hlast
            exfalso
            rcases hg : (s :: t).getLast? with _ | x
            · simp at hg
            · have hx : x ∈ s :: t := List.mem_of_getLast?_eq_some hg
              rw [svn_path_split, hg] at hlast
              simp at hlast
              exact h1 (hlast ▸ hx)
        have hrec := ih (svn_path_split segs).1 (svn_path_split segs).2 hlen2 hmem2 hinv2
        simp only [hdec, Bool.false_eq_true, if_false, hb, ite_false]
        rw [hrec]
        rcases segs with _ | ⟨s, t⟩
        · simp [svn_path_split]
        · simp [svn_path_split, ancestor_paths, List.findSome?_cons, hnone]
    · have hiso : (level_decision cfg nm (pathToString segs) user req).isSome = true := by
        rw [← parse_authz_lines_fst, hdec]
      obtain ⟨a, hsa⟩ := Option.isSome_iff_exists.mp hiso
      have hval := parse_authz_lines_snd cfg nm (pathToString segs) user req a hsa
      rcases segs with _ | ⟨s, t⟩ <;>
        simp [hdec, ancestor_paths, hsa, hval, List.findSome?_cons]

/-- C1: for a non-null path, the ancestor walk returns the decisive-formula
result of the deepest decisive level, where at each depth the qualified
section evaluated alone is consulted before the generic section evaluated
alone and shadows it when decisive, and denies by default when no ancestor
up to and including the root is decisive. -/
theorem claim_C1_deepest_decisive :
    ∀ (cfg : Config) (nm : String) (user : Option String) (req : Nat)
      (segs : List String),
      "/" ∉ segs →
      (check_access_loop cfg nm user req segs (pathToString segs)
         = ((ancestor_paths segs).findSome?
             (fun a => level_decision cfg nm (pathToString a) user req)).getD false)
      ∧ ((req = AUTHZ_SVN_READ ∨ req = AUTHZ_SVN_WRITE) →
         check_access cfg nm (some segs) user req
           = ((ancestor_paths segs).findSome?
               (fun a => level_decision cfg nm (pathToString a) user req)).getD false) := by
  intro cfg nm user req segs hmem
  have hmain := check_access_loop_eq_find cfg nm user req (segs.length + 1) segs
    (pathToString segs) (by split <;> omega) hmem (pathToString_eq_root segs)
  refine ⟨hmain, ?_⟩
  intro hreq
  have hne : (req == AUTHZ_SVN_READ_TREE) = false := by
    rcases hreq with h | h <;> subst h <;> decide
  simp only [check_access, hne, Bool.false_eq_true, if_false, ite_false,
    Bool.and_false]
  exact hmain

/-- Witness for C1 at a concrete policy, path and required permission. -/
theorem claim_C1_witness :
    ("/" ∉ (["a"] : List String))
    ∧ (check_access (Config.mk [("/a", [("*", "r")])]) "repo" (some ["a"]) none
          AUTHZ_SVN_READ
        = ((ancestor_paths ["a"]).findSome?
            (fun a => level_decision (Config.mk [("/a", [("*", "r")])]) "repo"
              (pathToString a) none AUTHZ_SVN_READ)).getD false) :=
  ⟨by decide,
    (claim_C1_deepest_decisive (Config.mk [("/a", [("*", "r")])]) "repo" none
      AUTHZ_SVN_READ ["a"] (by decide)).2 (Or.inl rfl)⟩

/-- Splitting a segment off strictly shrinks the termination measure of the
walk. -/
theorem svn_path_split_measure (segs : List String) (base : String) (n : Nat)
    (hb : ¬ base = "/")
    (hlen : segs.length + (if base = "/" then 0 else 1) ≤ n + 1) :
    (svn_path_split segs).1.length
      + (if (svn_path_split segs).2 = "/" then 0 else 1) ≤ n := by
  rcases segs with _ | ⟨s, t⟩
  · simp [svn_path_split]
  · simp only [svn_path_split, List.length_dropLast, List.length_cons]
    simp [hb] at hlen
    split <;> omega

/-- Anonymous evaluation skips every line whose principal is not the
wildcard. -/
theorem parse_authz_line_anon_skip (cfg : Config) (name value : String)
    (b : AuthzBits) (h : name ≠ "*") :
    parse_authz_line cfg none name value b = b := by
  unfold parse_authz_line line_skip
  simp [h]

/-- An anonymous line step never consults the policy beyond the line
itself. -/
theorem parse_authz_line_anon_cfg (cfg1 cfg2 : Config) (name value : String)
    (b : AuthzBits) :
    parse_authz_line cfg1 none name value b
      = parse_authz_line cfg2 none name value b := by
  by_cases h : name = "*"
  · subst h
    unfold parse_authz_line line_skip
    simp
  · rw [parse_authz_line_anon_skip cfg1 name value b h,
        parse_authz_line_anon_skip cfg2 name value b h]

/-- Anonymous section evaluation only sees the wildcard lines. -/
theorem enum_lines_anon_star (cfg : Config) :
    ∀ (L : List (String × String)) (b : AuthzBits),
      enum_lines cfg none L b
        = enum_lines cfg none (L.filter (fun nv => decide (nv.1 = "*"))) b := by
  intro L
  induction L with
  | nil => intro b; rfl
  | cons nv rest ih =>
    intro b
    by_cases h : nv.1 = "*"
    · have hc : decide (nv.1 = "*") = true := by simp [h]
      simp only [enum_lines] at ih ⊢
      simp only [List.foldl_cons, List.filter_cons]
      rw [if_pos hc]
      simp only [List.foldl_cons]
      exact ih (parse_authz_line cfg none nv.1 nv.2 b)
    · have hc : decide (nv.1 = "*") = false := by simp [h]
      simp only [enum_lines] at ih ⊢
      simp only [List.foldl_cons, List.filter_cons]
      rw [hc, if_neg Bool.false_ne_true]
      rw [parse_authz_line_anon_skip cfg nv.1 nv.2 b h]
      exact ih b

/-- Anonymous evaluation of any fixed line list is independent of the
policy. -/
theorem enum_lines_anon_cfg (cfg1 cfg2 : Config) :
    ∀ (L : List (String × String)) (b : AuthzBits),
      enum_lines cfg1 none L b = enum_lines cfg2 none L b := by
  intro L
  induction L with
  | nil => intro b; rfl
  | cons nv rest ih =>
    intro b
    simp only [enum_lines, List.foldl_cons]
    rw [parse_authz_line_anon_cfg cfg1 cfg2 nv.1 nv.2 b]
    exact ih (parse_authz_line cfg2 none nv.1 nv.2 b)

/-- Two policies with the same wildcard lines give the same anonymous
section evaluation. -/
theorem svn_config_enumerate_anon_eq (cfg1 cfg2 : Config)
    (hstar : ∀ sec, star_lines cfg1 sec = star_lines cfg2 sec)
    (sec : String) (b : AuthzBits) :
    svn_config_enumerate cfg1 sec none b
      = svn_config_enumerate cfg2 sec none b := by
  unfold svn_config_enumerate
  rw [enum_lines_anon_star cfg1 (configLines cfg1 sec) b,
    enum_lines_anon_star cfg2 (configLines cfg2 sec) b]
  have h := hstar sec
  unfold star_lines at h
  rw [h]
  exact enum_lines_anon_cfg cfg1 cfg2 _ b

/-- Two policies with the same wildcard lines agree on anonymous depth
evaluation. -/
theorem parse_authz_lines_anon_eq (cfg1 cfg2 : Config)
    (hstar : ∀ sec, star_lines cfg1 sec = star_lines cfg2 sec)
    (nm p : String) (req : Nat) :
    parse_authz_lines cfg1 nm p none req = parse_authz_lines cfg2 nm p none req := by
  simp only [parse_authz_lines]
  rw [svn_config_enumerate_anon_eq cfg1 cfg2 hstar (nm ++ ":" ++ p),
    svn_config_enumerate_anon_eq cfg1 cfg2 hstar p]

/-- Two policies with the same wildcard lines agree on the anonymous
ancestor walk. -/
theorem check_access_loop_anon_eq (cfg1 cfg2 : Config)
    (hstar : ∀ sec, star_lines cfg1 sec = star_lines cfg2 sec)
    (nm : String) (req : Nat) :
    ∀ (n : Nat) (segs : List String) (base : String),
      segs.length + (if base = "/" then 0 else 1) ≤ n →
      check_access_loop cfg1 nm none req segs base
        = check_access_loop cfg2 nm none req segs base := by
  intro n
  induction n with
  | zero =>
    intro segs base hlen
    have hb : base = "/" := by
      by_contra hb
      simp [hb] at hlen
    have hs : segs = [] := by
      rcases segs with _ | ⟨s, t⟩
      · rfl
      · simp [hb] at hlen
    subst hs
    subst hb
    unfold check_access_loop
    rw [parse_authz_lines_anon_eq cfg1 cfg2 hstar]
    simp
  | succ n ih =>
    intro segs base hlen
    unfold check_access_loop
    rw [parse_authz_lines_anon_eq cfg1 cfg2 hstar]
    cases hdec : (parse_authz_lines cfg2 nm (pathToString segs) none req).1
    · by_cases hb : base = "/"
      · simp [hdec, hb]
      · simp only [hdec, Bool.false_eq_true, if_false, hb, ite_false]
        exact ih (svn_path_split segs).1 (svn_path_split segs).2
          (svn_path_split_measure segs base n hb hlen)
    · simp [hdec]

/-- Looking up a key that is no section name yields nothing. -/
theorem lookup_eq_none_of_not_mem {β : Type}
    (l : List (String × β)) (s : String)
    (h : s ∉ l.map Prod.fst) : List.lookup s l = none := by
  induction l with
  | nil => rfl
  | cons kv rest ih =>
    rcases kv with ⟨k, v⟩
    simp only [List.map_cons, List.mem_cons] at h
    push_neg at h
    have hbeq : (s == k) = false := beq_eq_false_iff_ne.mpr h.1
    simp [List.lookup, hbeq, ih h.2]

/-- Anonymous single-section checks agree across policies with the same
wildcard lines. -/
theorem section_access_anon_eq (cfg1 cfg2 : Config)
    (hstar : ∀ sec, star_lines cfg1 sec = star_lines cfg2 sec)
    (req : Nat) (s : String) :
    section_access cfg1 none req s = section_access cfg2 none req s := by
  unfold section_access
  rw [svn_config_enumerate_anon_eq cfg1 cfg2 hstar s]

/-- A section with no wildcard lines always passes anonymously. -/
theorem section_access_no_star (cfg : Config) (req : Nat) (s : String)
    (h : star_lines cfg s = []) :
    section_access cfg none req s = true := by
  unfold star_lines at h
  unfold section_access svn_config_enumerate
  rw [enum_lines_anon_star, h]
  simp [enum_lines, access_formula, Nat.zero_and]

/-- Anonymous subtree scans agree across policies with the same wildcard
lines, for each matching pattern. -/
theorem subtree_all_anon_eq (cfg1 cfg2 : Config)
    (hstar : ∀ sec, star_lines cfg1 sec = star_lines cfg2 sec)
    (req : Nat) (pat : String) :
    (find_sections_matching cfg1 pat).all
        (fun s => section_access cfg1 none req s)
      = (find_sections_matching cfg2 pat).all
          (fun s => section_access cfg2 none req s) := by
  have key : ∀ (cA cB : Config),
      (∀ sec, star_lines cA sec = star_lines cB sec) →
      (∀ s ∈ find_sections_matching cB pat, section_access cB none req s = true) →
      ∀ s ∈ find_sections_matching cA pat, section_access cA none req s = true := by
    intro cA cB hs hall s hmem
    rw [section_access_anon_eq cA cB hs]
    by_cases hin : s ∈ cB.sections.map Prod.fst
    · apply hall
      unfold find_sections_matching at hmem ⊢
      rw [List.mem_filter] at hmem ⊢
      exact ⟨hin, hmem.2⟩
    · apply section_access_no_star
      have hnone : List.lookup s cB.sections = none :=
        lookup_eq_none_of_not_mem cB.sections s hin
      unfold star_lines configLines
      rw [hnone]
      rfl
  have hsymm : ∀ sec, star_lines cfg2 sec = star_lines cfg1 sec :=
    fun sec => (hstar sec).symm
  cases h2 : (find_sections_matching cfg2 pat).all
      (fun s => section_access cfg2 none req s)
  · cases h1 : (find_sections_matching cfg1 pat).all
        (fun s => section_access cfg1 none req s)
    · rfl
    · exfalso
      rw [List.all_eq_true] at h1
      have := key cfg2 cfg1 hsymm h1
      rw [← List.all_eq_true] at this
      rw [h2] at this
      simp at this
  · rw [List.all_eq_true] at h2 ⊢
    exact key cfg1 cfg2 hstar h2

/-- Two policies with the same wildcard lines give the same anonymous
decision for every repository, path and required permission. -/
theorem check_access_anon_eq (cfg1 cfg2 : Config)
    (hstar : ∀ sec, star_lines cfg1 sec = star_lines cfg2 sec) :
    ∀ (nm : String) (path : Option (List String)) (req : Nat),
      check_access cfg1 nm path none req = check_access cfg2 nm path none req := by
  intro nm path req
  rcases path with _ | segs
  · rfl
  · have hsub : ∀ r2 : Nat,
        check_access_subtree cfg1 nm (pathToString segs) none r2
          = check_access_subtree cfg2 nm (pathToString segs) none r2 := by
      intro r2
      rw [check_access_subtree_eq_all, check_access_subtree_eq_all,
        List.all_append, List.all_append,
        subtree_all_anon_eq cfg1 cfg2 hstar r2 (nm ++ ":" ++ pathToString segs),
        subtree_all_anon_eq cfg1 cfg2 hstar r2 (pathToString segs)]
    simp only [check_access]
    rw [check_access_loop_anon_eq cfg1 cfg2 hstar nm
      (if req == AUTHZ_SVN_READ_TREE then AUTHZ_SVN_READ else req)
      (segs.length + 1) segs (pathToString segs) (by split <;> omega), hsub]

/-- C9: anonymous decisions depend only on wildcard lines: lines naming a
user or group are skipped for an anonymous principal, and two policies that
agree on all their wildcard lines produce identical anonymous decisions for
every repository, path and required permission. -/
theorem claim_C9_anonymous_star_only :
    ∀ (cfg1 cfg2 : Config),
      (∀ sec, star_lines cfg1 sec = star_lines cfg2 sec) →
      ((∀ (nm : String) (path : Option (List String)) (req : Nat),
          check_access cfg1 nm path none req = check_access cfg2 nm path none req)
       ∧ (∀ (cfg : Config) (name value : String) (b : AuthzBits),
            name ≠ "*" → parse_authz_line cfg none name value b = b)) := by
  intro cfg1 cfg2 hstar
  exact ⟨check_access_anon_eq cfg1 cfg2 hstar,
    fun cfg name value b h => parse_authz_line_anon_skip cfg name value b h⟩

/-- Witness for C9 at two concrete policies that differ in named-user lines
and whole sections but share their wildcard lines. -/
theorem claim_C9_witness :
    check_access (Config.mk [("/a", [("*", "r")])]) "repo" (some ["a", "b"]) none
        AUTHZ_SVN_READ
      = check_access
          (Config.mk [("/a", [("bob", ""), ("*", "r")]), ("x", [("alice", "rw")])])
          "repo" (some ["a", "b"]) none AUTHZ_SVN_READ := by
  have hstar : ∀ sec,
      star_lines (Config.mk [("/a", [("*", "r")])]) sec
        = star_lines
            (Config.mk [("/a", [("bob", ""), ("*", "r")]), ("x", [("alice", "rw")])])
            sec := by
    intro s
    by_cases h1 : s = "/a"
    · subst h1
      decide
    · by_cases h2 : s = "x"
      · subst h2
        decide
      · unfold star_lines configLines
        rw [lookup_eq_none_of_not_mem _ s (by simp [h1]),
          lookup_eq_none_of_not_mem _ s (by simp [h1, h2])]
  exact (claim_C9_anonymous_star_only _ _ hstar).1 "repo" (some ["a", "b"])
    AUTHZ_SVN_READ

/-- C5: in the anonymous phase, when the host reports that authentication
is required, the engine defers with no opinion unless Satisfy Any is in
effect, and under Satisfy Any it forbids at this phase whenever the request
already carries a not-yet-validated credential header, in both cases
independently of the policy carried by the request. -/
theorem claim_C5_anonymous_phase :
    ∀ (conf : AuthzSvnConfig) (r : Request),
      conf.anonymous = true →
      conf.access_file.isNone = false →
      r.some_auth_required = true →
      ((r.satisfies ≠ Satisfy.any → access_checker conf r = Status.declined)
       ∧ (r.satisfies = Satisfy.any →
          (List.lookup
              (if r.proxyreq then "Proxy-Authorization" else "Authorization")
              r.headers).isSome = true →
          access_checker conf r = Status.http_forbidden)) := by
  intro conf r ha hf hreq
  constructor
  · intro hsat
    unfold access_checker
    simp [ha, hf, hreq, hsat]
  · intro hsat hcred
    unfold access_checker
    simp [ha, hf, hreq, hsat, hcred]

/-- C6: a null-path query allows for every policy, repository, principal
and required permission, and a MERGE request whose URI decomposes and whose
policy loads is always granted, because its path is discarded before
authorization. -/
theorem claim_C6_null_path_allows :
    (∀ (cfg : Config) (nm : String) (user : Option String) (req : Nat),
       check_access cfg nm none user req = true)
    ∧ (∀ (conf : AuthzSvnConfig) (r : Request) (nm : String)
         (p : Option (List String)) (cfg : Config),
        r.method = Method.m_merge →
        r.split_uri = some (nm, p) →
        r.loaded_policy = some cfg →
        req_check_access conf r = Status.ok) := by
  constructor
  · intro cfg nm user req
    rfl
  · intro conf r nm p cfg hm hsplit hpol
    unfold req_check_access
    simp [hsplit, hm, hpol, check_access]

/-- C7: a MOVE or COPY request with no Destination header is declined
(a representable outcome of the total model); with the destination
machinery succeeding, the request is granted exactly when the source check
and the destination check with AUTHZ_SVN_WRITE both allow, so an allowed
source with a denied destination is declined. -/
theorem claim_C7_move_copy_destination :
    ∀ (conf : AuthzSvnConfig) (r : Request) (nm : String)
      (p : Option (List String)),
      (r.method = Method.m_move ∨ r.method = Method.m_copy) →
      r.split_uri = some (nm, p) →
      ((List.lookup "Destination" r.headers = none →
          req_check_access conf r = Status.declined)
       ∧ (∀ (d dnm : String) (dp : Option (List String)) (cfg : Config),
           List.lookup "Destination" r.headers = some d →
           strncmp_eq conf.base_path (r.dest_path_of_uri d) = true →
           r.split_dest_uri (r.dest_path_of_uri d) = some (dnm, dp) →
           r.loaded_policy = some cfg →
           ((req_check_access conf r = Status.ok
              ↔ (check_access cfg nm p r.user (method_authz_type r.method) = true
                 ∧ check_access cfg dnm dp r.user AUTHZ_SVN_WRITE = true))
            ∧ (check_access cfg nm p r.user (method_authz_type r.method) = true →
               check_access cfg dnm dp r.user AUTHZ_SVN_WRITE = false →
               req_check_access conf r = Status.declined)))) := by
  intro conf r nm p hmc hsplit
  have hnm : ¬ r.method = Method.m_merge := by
    rcases hmc with h | h <;> rw [h] <;> intro hc <;> exact Method.noConfusion hc
  constructor
  · intro hdest
    unfold req_check_access
    simp only [hsplit, hnm, ite_false, if_false]
    rw [if_pos hmc]
    simp [hdest]
  · intro d dnm dp cfg hdest hpre hsplitd hpol
    unfold req_check_access
    simp only [hsplit, hnm, ite_false, if_false]
    rw [if_pos hmc]
    simp only [hdest, hpre, hsplitd, hpol, not_true, ite_false, if_false]
    constructor
    · by_cases hs : check_access cfg nm p r.user (method_authz_type r.method) <;>
        by_cases hd : check_access cfg dnm dp r.user AUTHZ_SVN_WRITE <;>
        simp [hs, hd]
    · intro hs hd
      simp [hs, hd]

/-- When the first depth is decisive the walk returns its access value at
once. -/
theorem check_access_loop_decisive (cfg : Config) (nm : String)
    (user : Option String) (req : Nat) (segs : List String) (base : String)
    (h : (parse_authz_lines cfg nm (pathToString segs) user req).1 = true) :
    check_access_loop cfg nm user req segs base
      = (parse_authz_lines cfg nm (pathToString segs) user req).2 := by
  unfold check_access_loop
  simp [h]

/-- Witness for C5 at a concrete host configuration and two concrete
requests: Satisfy All defers, Satisfy Any with a pending credential
forbids. -/
theorem claim_C5_witness :
    access_checker (AuthzSvnConfig.mk true true "/" (some "f"))
        (Request.mk Method.m_get none [] false true Satisfy.all
          (some ("repo", some ["a"])) (fun s => s) (fun _ => none) none)
      = Status.declined
    ∧ access_checker (AuthzSvnConfig.mk true true "/" (some "f"))
        (Request.mk Method.m_get none [("Authorization", "Basic x")] false true
          Satisfy.any (some ("repo", some ["a"])) (fun s => s) (fun _ => none)
          none)
      = Status.http_forbidden := by
  constructor
  · exact (claim_C5_anonymous_phase (AuthzSvnConfig.mk true true "/" (some "f"))
      (Request.mk Method.m_get none [] false true Satisfy.all
        (some ("repo", some ["a"])) (fun s => s) (fun _ => none) none)
      rfl rfl rfl).1 (by decide)
  · exact (claim_C5_anonymous_phase (AuthzSvnConfig.mk true true "/" (some "f"))
      (Request.mk Method.m_get none [("Authorization", "Basic x")] false true
        Satisfy.any (some ("repo", some ["a"])) (fun s => s) (fun _ => none)
        none)
      rfl rfl rfl).2 rfl (by decide)

/-- Witness for C6 at a concrete policy and a concrete MERGE request. -/
theorem claim_C6_witness :
    check_access (Config.mk []) "repo" none none AUTHZ_SVN_WRITE = true
    ∧ req_check_access (AuthzSvnConfig.mk true true "/" (some "f"))
        (Request.mk Method.m_merge (some "alice") [] false false Satisfy.nospec
          (some ("repo", some ["a"])) (fun s => s) (fun _ => none)
          (some (Config.mk [])))
      = Status.ok := by
  constructor
  · exact claim_C6_null_path_allows.1 (Config.mk []) "repo" none AUTHZ_SVN_WRITE
  · exact claim_C6_null_path_allows.2 (AuthzSvnConfig.mk true true "/" (some "f"))
      (Request.mk Method.m_merge (some "alice") [] false false Satisfy.nospec
        (some ("repo", some ["a"])) (fun s => s) (fun _ => none)
        (some (Config.mk [])))
      "repo" (some ["a"]) (Config.mk []) rfl rfl rfl

/-- Witness for C7 at concrete MOVE requests: one lacking a Destination
header is declined, and one whose source is allowed but whose destination
is denied for write is declined. -/
theorem claim_C7_witness :
    req_check_access (AuthzSvnConfig.mk true true "/svn" (some "f"))
        (Request.mk Method.m_move (some "alice") [] false false Satisfy.nospec
          (some ("repo", none)) (fun s => s) (fun _ => none)
          (some (Config.mk [("repo:/d", [("*", "")])])))
      = Status.declined
    ∧ req_check_access (AuthzSvnConfig.mk true true "/svn" (some "f"))
        (Request.mk Method.m_move (some "alice")
          [("Destination", "http://host/svn/d")] false false Satisfy.nospec
          (some ("repo", none)) (fun _ => "/svn/d")
          (fun _ => some ("repo", some ["d"]))
          (some (Config.mk [("repo:/d", [("*", "")])])))
      = Status.declined := by
  have hdec : (parse_authz_lines (Config.mk [("repo:/d", [("*", "")])]) "repo"
      (pathToString ["d"]) (some "alice") AUTHZ_SVN_WRITE).1 = true := by decide
  have hb4 : (AUTHZ_SVN_WRITE == AUTHZ_SVN_READ_TREE) = false := by decide
  have hdst : check_access (Config.mk [("repo:/d", [("*", "")])]) "repo"
      (some ["d"]) (some "alice") AUTHZ_SVN_WRITE = false := by
    simp only [check_access, hb4, Bool.false_eq_true, if_false, ite_false,
      Bool.and_false]
    rw [check_access_loop_decisive _ _ _ _ _ _ hdec]
    decide
  constructor
  · exact (claim_C7_move_copy_destination
      (AuthzSvnConfig.mk true true "/svn" (some "f"))
      (Request.mk Method.m_move (some "alice") [] false false Satisfy.nospec
        (some ("repo", none)) (fun s => s) (fun _ => none)
        (some (Config.mk [("repo:/d", [("*", "")])])))
      "repo" none (Or.inl rfl) rfl).1 rfl
  · exact ((claim_C7_move_copy_destination
      (AuthzSvnConfig.mk true true "/svn" (some "f"))
      (Request.mk Method.m_move (some "alice")
        [("Destination", "http://host/svn/d")] false false Satisfy.nospec
        (some ("repo", none)) (fun _ => "/svn/d")
        (fun _ => some ("repo", some ["d"]))
        (some (Config.mk [("repo:/d", [("*", "")])])))
      "repo" none (Or.inl rfl) rfl).2
      "http://host/svn/d" "repo" (some ["d"])
      (Config.mk [("repo:/d", [("*", "")])]) rfl (by decide) rfl rfl).2 rfl hdst

/-- Counterexample to C3 as stated: with a section /a granting everyone
read and write and a section /ab denying everyone, a ReadTree query on /a
is denied although the plain Read walk passes and no path-descendant
section of /a denies — the only sections are /a, which grants, and /ab,
which is not a path descendant of /a but is scanned by string prefix. -/
theorem claim_C3_counterexample :
    check_access (Config.mk [("/a", [("*", "rw")]), ("/ab", [("*", "")])])
        "repo" (some ["a"]) none AUTHZ_SVN_READ = true
    ∧ check_access (Config.mk [("/a", [("*", "rw")]), ("/ab", [("*", "")])])
        "repo" (some ["a"]) none AUTHZ_SVN_READ_TREE = false
    ∧ (Config.mk [("/a", [("*", "rw")]), ("/ab", [("*", "")])]).sections.map
        Prod.fst = ["/a", "/ab"]
    ∧ path_descendant "/a" "/a" = true
    ∧ section_access (Config.mk [("/a", [("*", "rw")]), ("/ab", [("*", "")])])
        none AUTHZ_SVN_READ "/a" = true
    ∧ path_descendant "/a" "/ab" = false := by
  have hdec : (parse_authz_lines
      (Config.mk [("/a", [("*", "rw")]), ("/ab", [("*", "")])]) "repo"
      (pathToString ["a"]) none AUTHZ_SVN_READ).1 = true := by decide
  have hb : (AUTHZ_SVN_READ == AUTHZ_SVN_READ_TREE) = false := by decide
  have hread : check_access
      (Config.mk [("/a", [("*", "rw")]), ("/ab", [("*", "")])]) "repo"
      (some ["a"]) none AUTHZ_SVN_READ = true := by
    simp only [check_access, hb, Bool.false_eq_true, if_false, ite_false,
      Bool.and_false]
    rw [check_access_loop_decisive _ _ _ _ _ _ hdec]
    decide
  have hsub : check_access_subtree
      (Config.mk [("/a", [("*", "rw")]), ("/ab", [("*", "")])]) "repo"
      (pathToString ["a"]) none AUTHZ_SVN_READ = false := by decide
  refine ⟨hread, ?_, rfl, by decide, by decide, by decide⟩
  rw [check_access_readtree_split, hread, hsub]
  rfl
